import Mathlib

/-!
Verification development for the Tabular Transformation & Cleaning Engine of
the dataset-cleaner repository.

The embedding follows the source layer by layer:
* `Cell`, `Col`, `Table` embed the in-memory pandas `DataFrame` as the spec's
  data model describes it: an ordered sequence of named, dtype-tagged columns
  of cells, a cell being a value or the missing marker (`NaN`).  Irrational
  results of `np.log` / `np.sqrt` are embedded as the formal cells
  `Cell.tlog x` / `Cell.tsqrt x` (meaning `log x`, `sqrt x`); their real value
  is recovered by the interpretation `Cell.rval`.  All other numeric values
  are embedded as exact rationals.
* `StoreState`, `getDataframe`, `updateDataframe` embed
  `data_layer/DatasetManager.py`.
* `validate_dataframe`, `check_duplicates` embed `data_layer/DataValidator.py`.
* `auto_clean`, `remove_duplicates`, the `fill_*` / `drop_column` operations
  embed `business_layer/DataCleaningController.py`.
* `FEState`, `save_undo_state`, `undo`, `redo`, `runMutatingOp` and the
  per-operation instances embed `business_layer/FeatureEngineeringController.py`.
  Every mutating operation of that controller has the same shape: fetch the
  dataframe, check `df is None or df.empty`, run the per-operation guards,
  `_save_undo_state()`, run the transform inside `try`, write back on success;
  `runMutatingOp` is that shape with the guards and the transform as
  parameters, and each operation is defined as an instance of it.
* Calls into external libraries that are not part of the repository
  (`sklearn` scalers, `sklearn` PCA and label encoding, `pd.qcut`, the Python
  `eval` interpreter) are taken as parameters of the corresponding operation,
  with their failure modes surfaced as `Except`; the repository-level logic
  around them (guards, shifts, naming, state handling) is embedded concretely.
* Python's `list.append` / `list.pop()` stack discipline is embedded with the
  top of the stack at the head of a `List`.
* Failure messages are embedded literally except that the single-quote
  characters around interpolated names are elided.
-/

/-- A cell of the working table: a numeric value (exact rational), a string
value, the missing marker (pandas `NaN`), or a formal transcendental value
produced by `np.log` / `np.sqrt`. -/
inductive Cell where
  | missing : Cell
  | num : ℚ → Cell
  | str : String → Cell
  | tlog : ℚ → Cell
  | tsqrt : ℚ → Cell
deriving DecidableEq, Repr

/-- Real value of a cell's numeric content (`missing` and strings have no
numeric content and are interpreted as 0; no claim depends on that corner). -/
noncomputable def Cell.rval : Cell → ℝ
  | .num x => (x : ℝ)
  | .tlog x => Real.log (x : ℝ)
  | .tsqrt x => Real.sqrt (x : ℝ)
  | _ => 0

/-- Whether a cell is the missing marker (`pd.isna`). -/
def Cell.isMissingB : Cell → Bool
  | .missing => true
  | _ => false

/-- The semantic dtype tag of a column: `numeric` embeds a pandas dtype with
`dtype.kind in "biufc"`, `object` embeds everything else. -/
inductive Dtype where
  | numeric : Dtype
  | object : Dtype
deriving DecidableEq, Repr

/-- One named, dtype-tagged column of cells. -/
structure Col where
  name : String
  dtype : Dtype
  cells : List Cell
deriving DecidableEq, Repr

/-- The working table: an ordered sequence of columns (`pd.DataFrame`). -/
structure Table where
  cols : List Col
deriving DecidableEq, Repr

/-- Row count of the table (`len(df)`): the length of the first column; a
table with no columns has no cells, hence row count 0. -/
def Table.rowCount (t : Table) : Nat :=
  ((t.cols.head?).map (fun c => c.cells.length)).getD 0

/-- `df.empty`: true iff either axis has length 0. -/
def Table.isEmpty (t : Table) : Bool :=
  t.cols.isEmpty || t.rowCount == 0

/-- Row `i` of the table: the `i`-th cell of every column in order. -/
def Table.rowAt (t : Table) (i : Nat) : List Cell :=
  t.cols.map (fun c => c.cells.getD i Cell.missing)

/-- First column with the given name (`df[name]` / `name in df.columns`). -/
def Table.findCol (t : Table) (name : String) : Option Col :=
  t.cols.find? (fun c => c.name == name)

/-- `name in df.columns`. -/
def Table.hasCol (t : Table) (name : String) : Bool :=
  (t.findCol name).isSome

/-- `df[name] = values`: replace the cells and dtype of the named column in
place if it exists, else append a new column at the end. -/
def Table.setCol (t : Table) (name : String) (dtype : Dtype) (cells : List Cell) : Table :=
  if t.hasCol name then
    ⟨t.cols.map (fun c => if c.name == name then ⟨name, dtype, cells⟩ else c)⟩
  else
    ⟨t.cols ++ [⟨name, dtype, cells⟩]⟩

/-- The alignment invariant of the data model: every column has the same
length, namely the table's row count. -/
def Table.aligned (t : Table) : Prop :=
  ∀ c ∈ t.cols, c.cells.length = t.rowCount

instance (t : Table) : Decidable t.aligned := by
  unfold Table.aligned; infer_instance

/-- The numeric (non-missing) values of a list of cells. -/
def numVals (cs : List Cell) : List ℚ :=
  cs.filterMap (fun c => match c with | .num x => some x | _ => none)

/-- Count of non-missing cells (`series.count()`). -/
def nonMissingCount (cs : List Cell) : Nat :=
  (cs.filter (fun c => !c.isMissingB)).length

/-- The number of missing cells of the whole table (`df.isnull().sum().sum()`). -/
def Table.totalMissing (t : Table) : Nat :=
  (t.cols.map (fun c => (c.cells.filter (fun x => x.isMissingB)).length)).sum

/-- The outcome dictionary returned by every controller operation:
`{"success": ..., "message": ...}` plus the optional payload keys the
individual operations add.  Numeric payloads that the source interpolates
into the message string (the log-transform shift, the PCA variance) are
carried here as structured fields. -/
structure OpResult where
  success : Bool
  message : String
  duplicatesRemoved : Option Nat := none
  columnsRemoved : Option Nat := none
  originalShape : Option (Nat × Nat) := none
  newShape : Option (Nat × Nat) := none
  meanValue : Option ℚ := none
  modeValue : Option Cell := none
  customValue : Option ℚ := none
  shiftReported : Option ℚ := none
  varianceReported : Option ℚ := none
deriving DecidableEq, Repr

/-- The Table Store (`DatasetManager`): it holds the current dataset, or
nothing before any load. -/
structure StoreState where
  table : Option Table
deriving DecidableEq, Repr

/-- `DatasetManager.get_dataframe`: the current dataframe, or an empty
`pd.DataFrame()` (never `None`) when no dataset is loaded. -/
def getDataframe (s : StoreState) : Table :=
  match s.table with
  | some t => t
  | none => ⟨[]⟩

/-- `DatasetManager.update_dataframe`: replaces the current dataset's data;
a no-op when no dataset is loaded. -/
def updateDataframe (s : StoreState) (t : Table) : StoreState :=
  match s.table with
  | some _ => ⟨some t⟩
  | none => s

/-! ### Duplicate-row machinery (pandas `duplicated` / `drop_duplicates`) -/

/-- `df.duplicated()` at row `i`: true iff some earlier row is equal to row
`i` (first occurrences are not marked). -/
def Table.dupB (t : Table) (i : Nat) : Bool :=
  (List.range i).any (fun j => decide (t.rowAt j = t.rowAt i))

/-- `df.duplicated().sum()`: the number of non-first occurrences. -/
def Table.duplicatedCount (t : Table) : Nat :=
  ((List.range t.rowCount).filter (fun i => t.dupB i)).length

/-- The row indices kept by `drop_duplicates` (first occurrences). -/
def Table.keptIndices (t : Table) : List Nat :=
  (List.range t.rowCount).filter (fun i => !t.dupB i)

/-- Restriction of the table to the given row indices, in order. -/
def Table.selectRows (t : Table) (idx : List Nat) : Table :=
  ⟨t.cols.map (fun c => ⟨c.name, c.dtype, idx.map (fun i => c.cells.getD i Cell.missing)⟩)⟩

/-- `df.drop_duplicates()`: keep the first occurrence of each distinct row. -/
def Table.dropDuplicates (t : Table) : Table :=
  t.selectRows t.keptIndices

/-- `df.duplicated(keep=False)` at row `i`: true iff some other row (anywhere
in the table) equals row `i`. -/
def Table.dupAnyB (t : Table) (i : Nat) : Bool :=
  (List.range t.rowCount).any (fun j => !(j == i) && decide (t.rowAt j = t.rowAt i))

/-! ### DataValidator (`data_layer/DataValidator.py`) -/

/-- The result dictionary of `DataValidator.validate_dataframe`.  The `info`
entries other than the shape (dtype counts, memory footprint) are not
modelled; no claim mentions them. -/
structure ValidationResult where
  is_valid : Bool
  errors : List String
  warnings : List String
  infoShape : Option (Nat × Nat)
deriving DecidableEq, Repr

/-- `DataValidator.validate_dataframe`. -/
def validate_dataframe (df : Table) : ValidationResult :=
  if df.isEmpty then
    ⟨false, ["Dataframe is empty"], [], none⟩
  else
    let missing_count := df.totalMissing
    let w1 : List String :=
      if missing_count > 0 then ["Found " ++ toString missing_count ++ " missing values"] else []
    let duplicate_count := df.duplicatedCount
    let w2 : List String :=
      if duplicate_count > 0 then ["Found " ++ toString duplicate_count ++ " duplicate rows"] else []
    ⟨true, [], w1 ++ w2, some (df.rowCount, df.cols.length)⟩

/-- `DataValidator.check_duplicates`: the rows marked by
`df.duplicated(keep=False)` — every member of every duplicate group. -/
def check_duplicates (df : Table) : Nat × List Nat :=
  let idx := (List.range df.rowCount).filter (fun i => df.dupAnyB i)
  (idx.length, idx)

/-! ### DataCleaningController (`business_layer/DataCleaningController.py`) -/

/-- The fixed literal set of missing-value tokens replaced by `auto_clean`
step 1. -/
def missingTokens : List String :=
  ["?", "??", "???", "na", "NaN", "NULL", "null", "--", "", " ", "none", "None"]

/-- Step-1 replacement on one cell: a string cell matching a token becomes
the missing marker. -/
def replCell (c : Cell) : Cell :=
  match c with
  | .str s => if s ∈ missingTokens then .missing else .str s
  | c => c

/-- Step 1 of `auto_clean`: `df.replace(missing_indicators, np.nan)`. -/
def replaceMissingTokens (t : Table) : Table :=
  ⟨t.cols.map (fun c => ⟨c.name, c.dtype, c.cells.map replCell⟩)⟩

/-- Step 2 of `auto_clean`: `df.dropna(axis=1, how="all")` — drop every
column all of whose cells are missing. -/
def dropAllMissingCols (t : Table) : Table :=
  ⟨t.cols.filter (fun c => !(c.cells.all (fun x => x.isMissingB)))⟩

/-- Step 3 of `auto_clean`: `df.dropna(axis=1, thresh=0.8*len(df))` — keep a
column iff it has at least `0.8 × rowCount` non-missing cells. -/
def dropThreshCols (t : Table) : Table :=
  ⟨t.cols.filter (fun c => decide ((4 / 5 : ℚ) * t.rowCount ≤ nonMissingCount c.cells))⟩

/-- Mean of a column's non-missing values (`series.mean()`). -/
def colMean (cs : List Cell) : ℚ :=
  (numVals cs).sum / (numVals cs).length

/-- The ordering pandas sorts mode candidates by (numbers by value, strings
lexicographically; only used within one dtype). -/
def cellLtB : Cell → Cell → Bool
  | .num x, .num y => decide (x < y)
  | .str a, .str b => decide (a < b)
  | .num _, _ => true
  | _, _ => false

/-- Number of occurrences of a value in a list of cells. -/
def countCell (cs : List Cell) (v : Cell) : Nat :=
  (cs.filter (fun x => x == v)).length

/-- The first element of `series.mode()`: among the values of maximal
multiplicity, the least in pandas' sort order; `none` when there are no
non-missing values. -/
def pickMode (cs : List Cell) : List Cell → Option Cell
  | [] => none
  | v :: rest =>
    match pickMode cs rest with
    | none => some v
    | some b =>
      if countCell cs v > countCell cs b ||
         (countCell cs v == countCell cs b && cellLtB v b) then some v else some b

/-- `series.mode()[0]` over the non-missing values of a column. -/
def colMode (cs : List Cell) : Option Cell :=
  let vs := cs.filter (fun x => !x.isMissingB)
  pickMode vs vs

/-- `series.fillna(v)`. -/
def fillCells (cs : List Cell) (v : Cell) : List Cell :=
  cs.map (fun x => if x.isMissingB then v else x)

/-- Step 4 of `auto_clean` on one column: fill missing cells with the mean
(numeric; 0 if the whole column is missing) or the mode (else `"Unknown"` if
there is no mode). -/
def fillColumn (c : Col) : Col :=
  if c.cells.any (fun x => x.isMissingB) then
    if c.dtype = Dtype.numeric then
      if !(c.cells.all (fun x => x.isMissingB)) then
        ⟨c.name, c.dtype, fillCells c.cells (.num (colMean c.cells))⟩
      else
        ⟨c.name, c.dtype, fillCells c.cells (.num 0)⟩
    else
      match colMode c.cells with
      | some v => ⟨c.name, c.dtype, fillCells c.cells v⟩
      | none => ⟨c.name, c.dtype, fillCells c.cells (.str "Unknown")⟩
  else c

/-- Step 4 of `auto_clean`. -/
def fillMissingValues (t : Table) : Table :=
  ⟨t.cols.map fillColumn⟩

/-- The five-stage `auto_clean` pipeline on a table, returning the cleaned
table, the number of duplicate rows removed, and the number of columns
removed. -/
def autoCleanPipeline (t : Table) : Table × Nat × Nat :=
  let s1 := replaceMissingTokens t
  let s2 := dropAllMissingCols s1
  let s3 := dropThreshCols s2
  let s4 := fillMissingValues s3
  let d := s4.duplicatedCount
  let s5 := s4.dropDuplicates
  (s5, d, t.cols.length - s5.cols.length)

/-- `DataCleaningController.auto_clean`. -/
def auto_clean (s : StoreState) : OpResult × StoreState :=
  let df := getDataframe s
  if df.isEmpty then
    ({ success := false, message := "No dataset loaded or dataset is empty" }, s)
  else
    let r := autoCleanPipeline df
    ({ success := true, message := "Dataset cleaned successfully",
       originalShape := some (df.rowCount, df.cols.length),
       newShape := some (r.1.rowCount, r.1.cols.length),
       duplicatesRemoved := some r.2.1,
       columnsRemoved := some r.2.2 },
     updateDataframe s r.1)

/-- `DataCleaningController.remove_duplicates`. -/
def remove_duplicates (s : StoreState) : OpResult × StoreState :=
  let df := getDataframe s
  if df.isEmpty then
    ({ success := false, message := "No dataset loaded" }, s)
  else
    let d := df.duplicatedCount
    ({ success := true, message := "Removed " ++ toString d ++ " duplicate rows",
       duplicatesRemoved := some d },
     updateDataframe s df.dropDuplicates)

/-- `DataCleaningController.fill_missing_with_mean`.  When the column has no
numeric values at all, `fillna(mean)` with a `NaN` mean leaves the cells
unchanged; that corner is embedded with `meanValue := none`. -/
def fill_missing_with_mean (column : String) (s : StoreState) : OpResult × StoreState :=
  let df := getDataframe s
  if df.isEmpty then
    ({ success := false, message := "No dataset loaded" }, s)
  else
    match df.findCol column with
    | none => ({ success := false, message := "Column " ++ column ++ " not found" }, s)
    | some c =>
      if c.dtype = Dtype.numeric then
        if (numVals c.cells).length = 0 then
          ({ success := true, message := "Filled missing values with mean" },
           updateDataframe s df)
        else
          let m := colMean c.cells
          ({ success := true, message := "Filled missing values with mean", meanValue := some m },
           updateDataframe s (df.setCol column c.dtype (fillCells c.cells (.num m))))
      else
        ({ success := false, message := "Mean can only be applied to numeric columns" }, s)

/-- `DataCleaningController.fill_missing_with_mode`. -/
def fill_missing_with_mode (column : String) (s : StoreState) : OpResult × StoreState :=
  let df := getDataframe s
  if df.isEmpty then
    ({ success := false, message := "No dataset loaded" }, s)
  else
    match df.findCol column with
    | none => ({ success := false, message := "Column " ++ column ++ " not found" }, s)
    | some c =>
      match colMode c.cells with
      | some v =>
        ({ success := true, message := "Filled missing values with mode", modeValue := some v },
         updateDataframe s (df.setCol column c.dtype (fillCells c.cells v)))
      | none =>
        ({ success := true, message := "Filled missing values with mode",
           modeValue := some (.str "Unknown") },
         updateDataframe s (df.setCol column c.dtype (fillCells c.cells (.str "Unknown"))))

/-- Fractional-literal parsing for `fill_missing_with_custom`
(`float(value)`): digits, an optional leading minus, one decimal point. -/
def parseDecimal (v : String) : Option ℚ :=
  match v.splitOn "." with
  | [a, b] =>
    match a.toInt?, b.toNat? with
    | some ia, some nb =>
      let mag : ℚ := |(ia : ℚ)| + (nb : ℚ) / ((10 : ℚ) ^ b.length)
      some (if v.startsWith "-" then -mag else mag)
    | _, _ => none
  | _ => none

/-- The numeric parse in `fill_missing_with_custom`:
`float(value) if '.' in str(value) else int(value)`; a parse failure is the
exception the controller converts to a Failure. -/
def parseCustomValue (v : String) : Except String ℚ :=
  if v.contains '.' then
    match parseDecimal v with
    | some q => .ok q
    | none => .error ("could not convert string to float: " ++ v)
  else
    match v.toInt? with
    | some i => .ok ((i : ℚ))
    | none => .error ("invalid literal for int with base 10: " ++ v)

/-- `DataCleaningController.fill_missing_with_custom` (the raw value arrives
as a string from the UI). -/
def fill_missing_with_custom (column : String) (value : String) (s : StoreState) :
    OpResult × StoreState :=
  let df := getDataframe s
  if df.isEmpty then
    ({ success := false, message := "No dataset loaded" }, s)
  else
    match df.findCol column with
    | none => ({ success := false, message := "Column " ++ column ++ " not found" }, s)
    | some c =>
      if c.dtype = Dtype.numeric then
        match parseCustomValue value with
        | .error e => ({ success := false, message := "Fill operation failed: " ++ e }, s)
        | .ok q =>
          ({ success := true, message := "Filled missing values with custom value",
             customValue := some q },
           updateDataframe s (df.setCol column c.dtype (fillCells c.cells (.num q))))
      else
        ({ success := true, message := "Filled missing values with custom value" },
         updateDataframe s (df.setCol column c.dtype (fillCells c.cells (.str value))))

/-- `DataCleaningController.drop_column`. -/
def drop_column (column : String) (s : StoreState) : OpResult × StoreState :=
  let df := getDataframe s
  if df.isEmpty then
    ({ success := false, message := "No dataset loaded" }, s)
  else
    match df.findCol column with
    | none => ({ success := false, message := "Column " ++ column ++ " not found" }, s)
    | some _ =>
      ({ success := true, message := "Successfully dropped column " ++ column },
       updateDataframe s ⟨df.cols.filter (fun c => !(c.name == column))⟩)

/-! ### FeatureEngineeringController (`business_layer/FeatureEngineeringController.py`) -/

/-- The FeatureEngine state: the Table Store it talks to plus the two
snapshot stacks it owns (top of stack at the head). -/
structure FEState where
  store : StoreState
  undoStack : List Table
  redoStack : List Table
deriving DecidableEq, Repr

/-- `FeatureEngineeringController._save_undo_state`: push a deep copy of the
current table onto the undo stack and clear the redo stack, in one step, but
only when a table is actually loaded and non-empty. -/
def save_undo_state (st : FEState) : FEState :=
  let df := getDataframe st.store
  if !df.isEmpty then ⟨st.store, df :: st.undoStack, []⟩ else st

/-- `FeatureEngineeringController.undo`. -/
def FEState.undo (st : FEState) : OpResult × FEState :=
  match st.undoStack with
  | [] => ({ success := false, message := "Nothing to undo" }, st)
  | prev :: rest =>
    let cur := getDataframe st.store
    let redo2 := if !cur.isEmpty then cur :: st.redoStack else st.redoStack
    ({ success := true, message := "Undo applied successfully" },
     ⟨updateDataframe st.store prev, rest, redo2⟩)

/-- `FeatureEngineeringController.redo`. -/
def FEState.redo (st : FEState) : OpResult × FEState :=
  match st.redoStack with
  | [] => ({ success := false, message := "Nothing to redo" }, st)
  | next :: rest =>
    let cur := getDataframe st.store
    let undo2 := if !cur.isEmpty then cur :: st.undoStack else st.undoStack
    ({ success := true, message := "Redo applied successfully" },
     ⟨updateDataframe st.store next, undo2, rest⟩)

/-- The shared shape of every mutating FeatureEngine operation: fetch the
dataframe, fail if none/empty, run the per-operation guards, save the undo
snapshot, run the transform (the body of the `try` block), and write the new
table back on success.  A transform failure is the caught exception. -/
def runMutatingOp (guard : Table → Option String)
    (transform : Table → Except String (Table × OpResult)) (st : FEState) :
    OpResult × FEState :=
  let df := getDataframe st.store
  if df.isEmpty then ({ success := false, message := "No dataset loaded" }, st)
  else
    match guard df with
    | some m => ({ success := false, message := m }, st)
    | none =>
      let st1 := save_undo_state st
      match transform df with
      | .error m => ({ success := false, message := m }, st1)
      | .ok (df2, r) => (r, ⟨updateDataframe st1.store df2, st1.undoStack, st1.redoStack⟩)

/-- The guard shared by the numeric-only operations: the column must exist
and must have a numeric dtype (`df[column].dtype.kind in "biufc"`). -/
def numericColGuard (column : String) (df : Table) : Option String :=
  match df.findCol column with
  | none => some ("Column " ++ column ++ " not found")
  | some c =>
    if c.dtype = Dtype.numeric then none
    else some ("Column " ++ column ++ " must be numeric")

/-- The guard of the encoding operations: the column must exist. -/
def existColGuard (column : String) (df : Table) : Option String :=
  match df.findCol column with
  | none => some ("Column " ++ column ++ " not found")
  | some _ => none

/-- The type of an external per-column library primitive (a `sklearn`
scaler/encoder fit-transform or `pd.qcut`): it maps the column's cells to the
new cells or raises. -/
def ColKernel : Type := List Cell → Except String (List Cell)

/-- `standardize_column` (z-score via the external `StandardScaler`, which is
passed as the kernel; its result replaces the column in place). -/
def standardize_column (K : ColKernel) (column : String) (st : FEState) : OpResult × FEState :=
  runMutatingOp (numericColGuard column)
    (fun df =>
      match df.findCol column with
      | none => .error ("Column " ++ column ++ " not found")
      | some c =>
        match K c.cells with
        | .error e => .error ("Standardization failed: " ++ e)
        | .ok cs =>
          .ok (df.setCol column Dtype.numeric cs,
               { success := true, message := "Successfully standardized column " ++ column }))
    st

/-- `MinMaxScaler.fit_transform` on one column: `(x - min) / (max - min)`,
with a zero range replaced by 1 (sklearn's zero-variance guard); missing
values pass through. -/
def minmaxCells (cs : List Cell) : List Cell :=
  match (numVals cs).min?, (numVals cs).max? with
  | some mn, some mx =>
    let r : ℚ := if mx = mn then 1 else mx - mn
    cs.map (fun c => match c with | .num x => .num ((x - mn) / r) | _ => .missing)
  | _, _ => cs.map (fun c => match c with | .num x => .num x | _ => .missing)

/-- `minmax_scale_column` (creates `<col>_minmax`). -/
def minmax_scale_column (column : String) (st : FEState) : OpResult × FEState :=
  runMutatingOp (numericColGuard column)
    (fun df =>
      match df.findCol column with
      | none => .error ("Column " ++ column ++ " not found")
      | some c =>
        let newName := column ++ "_minmax"
        .ok (df.setCol newName Dtype.numeric (minmaxCells c.cells),
             { success := true,
               message := "Successfully normalized column " ++ column ++ " as " ++ newName }))
    st

/-- `robust_scale_column` (median/IQR scaling via the external
`RobustScaler`, passed as the kernel; creates `<col>_robust`). -/
def robust_scale_column (K : ColKernel) (column : String) (st : FEState) : OpResult × FEState :=
  runMutatingOp (numericColGuard column)
    (fun df =>
      match df.findCol column with
      | none => .error ("Column " ++ column ++ " not found")
      | some c =>
        match K c.cells with
        | .error e => .error ("Robust scaling failed: " ++ e)
        | .ok cs =>
          let newName := column ++ "_robust"
          .ok (df.setCol newName Dtype.numeric cs,
               { success := true,
                 message := "Successfully robust scaled column " ++ column ++ " as " ++ newName }))
    st

/-- `np.log(series + shift)`: each numeric value becomes the formal natural
log of its shifted value; missing values stay missing. -/
def logCellsShift (shift : ℚ) (cs : List Cell) : List Cell :=
  cs.map (fun c => match c with | .num x => .tlog (x + shift) | _ => .missing)

/-- `np.log(series)` without shift. -/
def logCellsPlain (cs : List Cell) : List Cell :=
  cs.map (fun c => match c with | .num x => .tlog x | _ => .missing)

/-- `log_transform_column`: creates `<col>_log`; when the column minimum is
`≤ 0` every value is shifted by `|min| + 1` first, and the shift is reported
(the source interpolates it into the success message). -/
def log_transform_column (column : String) (st : FEState) : OpResult × FEState :=
  runMutatingOp (numericColGuard column)
    (fun df =>
      match df.findCol column with
      | none => .error ("Column " ++ column ++ " not found")
      | some c =>
        let newName := column ++ "_log"
        match (numVals c.cells).min? with
        | some m =>
          if m ≤ 0 then
            let shift := |m| + 1
            .ok (df.setCol newName Dtype.numeric (logCellsShift shift c.cells),
                 { success := true,
                   message := "Log transformed " ++ column ++ " to " ++ newName ++
                     " (shifted by " ++ toString shift ++ ")",
                   shiftReported := some shift })
          else
            .ok (df.setCol newName Dtype.numeric (logCellsPlain c.cells),
                 { success := true,
                   message := "Log transformed " ++ column ++ " to " ++ newName })
        | none =>
          .ok (df.setCol newName Dtype.numeric (logCellsPlain c.cells),
               { success := true,
                 message := "Log transformed " ++ column ++ " to " ++ newName }))
    st

/-- `np.sqrt(series + shift)` as formal square roots. -/
def sqrtCellsShift (shift : ℚ) (cs : List Cell) : List Cell :=
  cs.map (fun c => match c with | .num x => .tsqrt (x + shift) | _ => .missing)

/-- `np.sqrt(series)` without shift. -/
def sqrtCellsPlain (cs : List Cell) : List Cell :=
  cs.map (fun c => match c with | .num x => .tsqrt x | _ => .missing)

/-- `sqrt_transform_column`: creates `<col>_sqrt`; when the column minimum is
negative every value is shifted by `|min|` first. -/
def sqrt_transform_column (column : String) (st : FEState) : OpResult × FEState :=
  runMutatingOp (numericColGuard column)
    (fun df =>
      match df.findCol column with
      | none => .error ("Column " ++ column ++ " not found")
      | some c =>
        let newName := column ++ "_sqrt"
        match (numVals c.cells).min? with
        | some m =>
          if m < 0 then
            let shift := |m|
            .ok (df.setCol newName Dtype.numeric (sqrtCellsShift shift c.cells),
                 { success := true,
                   message := "Square root transformed " ++ column ++ " to " ++ newName ++
                     " (shifted by " ++ toString shift ++ ")",
                   shiftReported := some shift })
          else
            .ok (df.setCol newName Dtype.numeric (sqrtCellsPlain c.cells),
                 { success := true,
                   message := "Square root transformed " ++ column ++ " to " ++ newName })
        | none =>
          .ok (df.setCol newName Dtype.numeric (sqrtCellsPlain c.cells),
               { success := true,
                 message := "Square root transformed " ++ column ++ " to " ++ newName }))
    st

/-- `bin_column` (quantile binning via the external `pd.qcut`, passed as a
kernel taking the bucket count; creates `<col>_binned`). -/
def bin_column (qcutK : Nat → ColKernel) (column : String) (n_bins : Nat) (st : FEState) :
    OpResult × FEState :=
  runMutatingOp (numericColGuard column)
    (fun df =>
      match df.findCol column with
      | none => .error ("Column " ++ column ++ " not found")
      | some c =>
        match qcutK n_bins c.cells with
        | .error e => .error ("Binning failed: " ++ e)
        | .ok cs =>
          let newName := column ++ "_binned"
          .ok (df.setCol newName Dtype.numeric cs,
               { success := true,
                 message := "Successfully binned column " ++ column ++ " into " ++
                   toString n_bins ++ " bins as " ++ newName }))
    st

/-- `series ** d`: missing stays missing. -/
def powCells (cs : List Cell) (d : Nat) : List Cell :=
  cs.map (fun c => match c with | .num x => .num (x ^ d) | _ => .missing)

/-- The degrees `range(2, degree + 1)` of `create_polynomial_features`. -/
def polyDegrees (degree : Nat) : List Nat :=
  List.range' 2 (degree + 1 - 2)

/-- The body of the `try` block of `create_polynomial_features`: add
`<col>_poly{d}` for each `d ∈ [2, degree]`. -/
def polyTransform (column : String) (degree : Nat) (df : Table) :
    Except String (Table × OpResult) :=
  match df.findCol column with
  | none => .error ("Column " ++ column ++ " not found")
  | some c =>
    let names := (polyDegrees degree).map (fun d => column ++ "_poly" ++ toString d)
    let df2 := (polyDegrees degree).foldl
      (fun acc d => acc.setCol (column ++ "_poly" ++ toString d) Dtype.numeric
        (powCells c.cells d)) df
    .ok (df2,
         { success := true,
           message := "Successfully created polynomial features: " ++
             String.intercalate ", " names })

/-- `create_polynomial_features`: creates `<col>_poly{d}` for each
`d ∈ [2, degree]`. -/
def create_polynomial_features (column : String) (degree : Nat) (st : FEState) :
    OpResult × FEState :=
  runMutatingOp (numericColGuard column) (polyTransform column degree) st

/-- Insertion of a string into a sorted list (ascending). -/
def insertStr (a : String) : List String → List String
  | [] => [a]
  | b :: rest => if a ≤ b then a :: b :: rest else b :: insertStr a rest

/-- Insertion sort on strings: the sorted order `pd.get_dummies` lists the
categories in. -/
def sortStrs : List String → List String
  | [] => []
  | a :: rest => insertStr a (sortStrs rest)

/-- `pd.get_dummies(df[column], prefix=column)` for a string-valued column
(the case the repository exercises): one 0/1 indicator column per distinct
category, in sorted order, named `<col>_<category>`; missing values get no
category. -/
def getDummies (column : String) (cs : List Cell) : List Col :=
  let cats := sortStrs ((cs.filterMap
    (fun x => match x with | .str s => some s | _ => none)).dedup)
  cats.map (fun s =>
    ⟨column ++ "_" ++ s, Dtype.numeric,
     cs.map (fun x => if x == Cell.str s then .num 1 else .num 0)⟩)

/-- `one_hot_encode_column`: appends the indicator columns, the original
column is retained. -/
def one_hot_encode_column (column : String) (st : FEState) : OpResult × FEState :=
  runMutatingOp (existColGuard column)
    (fun df =>
      match df.findCol column with
      | none => .error ("Column " ++ column ++ " not found")
      | some c =>
        let dummies := getDummies column c.cells
        .ok (⟨df.cols ++ dummies⟩,
             { success := true,
               message := "Successfully one-hot encoded column " ++ column ++ " into " ++
                 toString dummies.length ++ " columns" }))
    st

/-- `label_encode_column` (integer codes via the external `LabelEncoder` on
the stringified column, passed as the kernel; creates `<col>_label`). -/
def label_encode_column (K : ColKernel) (column : String) (st : FEState) : OpResult × FEState :=
  runMutatingOp (existColGuard column)
    (fun df =>
      match df.findCol column with
      | none => .error ("Column " ++ column ++ " not found")
      | some c =>
        match K c.cells with
        | .error e => .error ("Label encoding failed: " ++ e)
        | .ok cs =>
          let newName := column ++ "_label"
          .ok (df.setCol newName Dtype.numeric cs,
               { success := true,
                 message := "Successfully label encoded column " ++ column ++ " as " ++ newName }))
    st

/-- The numeric columns of the table (`df.select_dtypes(include=[np.number])`). -/
def Table.numericCols (t : Table) : List Col :=
  t.cols.filter (fun c => c.dtype == Dtype.numeric)

/-- The type of the external `sklearn` PCA primitive: given the component
count and the numeric columns it returns the per-component score columns and
the sum of the explained-variance ratios, or raises (e.g. on missing
values). -/
def PcaKernel : Type := Nat → List (List Cell) → Except String (List (List ℚ) × ℚ)

/-- `apply_pca`: requires at least 2 numeric columns and
`n_components ≤ numericColumnCount`; on success appends `PC_1..PC_n` and
reports the cumulative explained-variance percentage (the source
interpolates it into the message). -/
def apply_pca (pcaK : PcaKernel) (n_components : Nat) (st : FEState) : OpResult × FEState :=
  runMutatingOp
    (fun df =>
      let nc := df.numericCols.length
      if nc < 2 then some "Need at least 2 numeric columns for PCA"
      else if n_components > nc then some ("n_components must be <= " ++ toString nc)
      else none)
    (fun df =>
      match pcaK n_components (df.numericCols.map (fun c => c.cells)) with
      | .error e => .error ("PCA failed: " ++ e)
      | .ok (scores, varsum) =>
        let df2 := (List.range n_components).foldl
          (fun acc i => acc.setCol ("PC_" ++ toString (i + 1)) Dtype.numeric
            ((scores.getD i []).map Cell.num)) df
        .ok (df2,
             { success := true,
               message := "Successfully applied PCA with " ++ toString n_components ++
                 " components",
               varianceReported := some (varsum * 100) }))
    st

/-- Modelled from the spec: `createCustomFeature` evaluates the expression
against the table in a restricted namespace via a generic interpreter (the
Python `eval` builtin, external to the repository, §4.4 of the spec).  The
interpreter is modelled on the simplest expression form, a bare column
reference: it yields that column's cells, and raises a name error — caught
and converted to a Failure by the controller — when the name is undefined. -/
def evalColumnExpr (expr : String) (df : Table) : Except String (Dtype × List Cell) :=
  match df.findCol expr with
  | some c => .ok (c.dtype, c.cells)
  | none => .error ("name " ++ expr ++ " is not defined")

/-- `create_custom_feature`: assigns the evaluated expression as a new column
named `feature_name`. -/
def create_custom_feature (feature_name expression : String) (st : FEState) :
    OpResult × FEState :=
  runMutatingOp
    (fun _ =>
      if feature_name == "" || expression == "" then
        some "Feature name and expression required"
      else none)
    (fun df =>
      match evalColumnExpr expression df with
      | .error e => .error ("Custom feature creation failed: " ++ e)
      | .ok (d, cs) =>
        .ok (df.setCol feature_name d cs,
             { success := true,
               message := "Successfully created custom feature " ++ feature_name }))
    st

/-- The names `PC_1 .. PC_n` created by `apply_pca`. -/
def pcNames (n : Nat) : List String :=
  (List.range n).map (fun i => "PC_" ++ toString (i + 1))

/-! ### Concrete inputs used by the claims' scenarios -/

/-- A one-column numeric table. -/
def tblC1 : Table := ⟨[⟨"A", Dtype.numeric, [.num 1, .num 2]⟩]⟩

/-- A snapshot sitting on the redo stack before the failing call. -/
def tblC1r : Table := ⟨[⟨"R", Dtype.numeric, [.num 9]⟩]⟩

/-- Engine state before a failing `create_custom_feature` call: table loaded,
empty undo stack, one redo snapshot. -/
def stC1 : FEState := ⟨⟨some tblC1⟩, [], [tblC1r]⟩

/-- A 5-row table whose column `A` is 40% missing (60% non-missing) and whose
column `B` is fully present. -/
def tblC2 : Table :=
  ⟨[⟨"A", Dtype.numeric, [.num 1, .num 2, .num 3, .missing, .missing]⟩,
    ⟨"B", Dtype.numeric, [.num 1, .num 2, .num 3, .num 4, .num 5]⟩]⟩

/-- A loaded table for the undo/redo roundtrip scenario. -/
def tblC3 : Table := ⟨[⟨"A", Dtype.numeric, [.num 3, .num 4]⟩]⟩

/-- Engine state for the undo/redo roundtrip scenario. -/
def stC3 : FEState := ⟨⟨some tblC3⟩, [], []⟩

/-- The spec's duplicate scenario: rows `[Raju,25],[Ajay,30],[Raju,25]`. -/
def tblC5 : Table :=
  ⟨[⟨"Name", Dtype.object, [.str "Raju", .str "Ajay", .str "Raju"]⟩,
    ⟨"Age", Dtype.numeric, [.num 25, .num 30, .num 25]⟩]⟩

/-- Store holding the duplicate-scenario table. -/
def stC5 : StoreState := ⟨some tblC5⟩

/-- A table exercising every `auto_clean` stage: a missing token, a missing
numeric cell, and a duplicate row. -/
def tblC6 : Table :=
  ⟨[⟨"A", Dtype.numeric, [.num 1, .num 1, .missing, .num 2, .num 3]⟩,
    ⟨"N", Dtype.object, [.str "a", .str "a", .str "?", .str "b", .str "c"]⟩]⟩

/-- Store holding the `auto_clean` idempotence scenario table. -/
def stC6 : StoreState := ⟨some tblC6⟩

/-- The spec's log-transform scenario column `[-5, 0, 10]`. -/
def tblC7 : Table := ⟨[⟨"x", Dtype.numeric, [.num (-5), .num 0, .num 10]⟩]⟩

/-- Engine state for the log-transform scenario. -/
def stC7 : FEState := ⟨⟨some tblC7⟩, [], []⟩

/-- A table with exactly two numeric columns, for the PCA scenario. -/
def tblC8 : Table :=
  ⟨[⟨"a", Dtype.numeric, [.num 1, .num 2]⟩, ⟨"b", Dtype.numeric, [.num 3, .num 4]⟩]⟩

/-- Engine state for the PCA scenario. -/
def stC8 : FEState := ⟨⟨some tblC8⟩, [], []⟩

/-- A PCA primitive instance (its behavior is irrelevant to the guard
claims). -/
def pcaKStub : PcaKernel := fun _ _ => .error "kernel"

/-- A non-empty one-cell table for the validator scenario. -/
def tblC9 : Table := ⟨[⟨"A", Dtype.numeric, [.num 1]⟩]⟩

/-! ### Invariant predicates used by the idempotence analysis -/

/-- No cell of the table is the missing marker. -/
def Table.noMissing (t : Table) : Prop :=
  ∀ c ∈ t.cols, ∀ x ∈ c.cells, x ≠ Cell.missing

instance (t : Table) : Decidable t.noMissing := by
  unfold Table.noMissing; infer_instance

/-- Whether a cell is one of the literal missing-value tokens of
`auto_clean` step 1. -/
def Cell.isTokenB : Cell → Bool
  | .str s => decide (s ∈ missingTokens)
  | _ => false

/-- No cell of the table is a literal missing-value token. -/
def Table.noTokens (t : Table) : Prop :=
  ∀ c ∈ t.cols, ∀ x ∈ c.cells, x.isTokenB = false

instance (t : Table) : Decidable t.noTokens := by
  unfold Table.noTokens; infer_instance

/-- No row of the table equals an earlier row. -/
def Table.noDups (t : Table) : Prop :=
  ∀ i < t.rowCount, t.dupB i = false

instance (t : Table) : Decidable t.noDups := by
  unfold Table.noDups
  exact Nat.decidableBallLT _ _

/-! ## Basic lemmas -/

theorem Table.isEmpty_iff_rowCount (t : Table) : t.isEmpty = true ↔ t.rowCount = 0 := by
  cases h : t.cols with
  | nil => simp [Table.isEmpty, Table.rowCount, h]
  | cons c cs => simp [Table.isEmpty, Table.rowCount, h]

theorem Table.isEmpty_false_iff (t : Table) :
    t.isEmpty = false ↔ t.cols ≠ [] ∧ 0 < t.rowCount := by
  cases h : t.cols with
  | nil => simp [Table.isEmpty, Table.rowCount, h]
  | cons c cs => simp [Table.isEmpty, Table.rowCount, h, Nat.pos_iff_ne_zero]

theorem store_eq_some_of_nonempty (s : StoreState)
    (h : (getDataframe s).isEmpty = false) : s.table = some (getDataframe s) := by
  cases hs : s.table with
  | some t => simp [getDataframe, hs]
  | none =>
    exfalso
    rw [getDataframe, hs] at h
    simp [Table.isEmpty, Table.rowCount] at h

theorem updateDataframe_of_some {s : StoreState} {u : Table} (t : Table)
    (h : s.table = some u) : updateDataframe s t = ⟨some t⟩ := by
  simp [updateDataframe, h]

theorem save_undo_state_of_nonempty {st : FEState}
    (h : (getDataframe st.store).isEmpty = false) :
    save_undo_state st = ⟨st.store, getDataframe st.store :: st.undoStack, []⟩ := by
  simp [save_undo_state, h]

theorem getDataframe_some (t : Table) : getDataframe ⟨some t⟩ = t := rfl

theorem updateDataframe_some (u t : Table) : updateDataframe ⟨some u⟩ t = ⟨some t⟩ := rfl

/-! ## Claim C9 — validator emptiness -/

/-- C9: `validate(table)` returns `isValid = false`, with the
table-is-empty error, iff the table has zero rows; a table with at least one
row is always valid, with an empty error list (missing cells and duplicate
rows only ever contribute warnings). -/
theorem validate_dataframe_empty_iff (t : Table) :
    ((validate_dataframe t).is_valid = false ↔ t.rowCount = 0) ∧
    (t.rowCount = 0 → (validate_dataframe t).errors = ["Dataframe is empty"]) ∧
    (0 < t.rowCount →
      (validate_dataframe t).is_valid = true ∧ (validate_dataframe t).errors = []) := by
  by_cases hE : t.isEmpty = true
  · have h0 := (Table.isEmpty_iff_rowCount t).mp hE
    refine ⟨?_, ?_, ?_⟩
    · simp [validate_dataframe, hE, h0]
    · intro _; simp [validate_dataframe, hE]
    · intro hpos; omega
  · have hE' : t.isEmpty = false := by simpa using hE
    have h0 : t.rowCount ≠ 0 := fun h => hE ((Table.isEmpty_iff_rowCount t).mpr h)
    refine ⟨?_, ?_, ?_⟩
    · simp [validate_dataframe, hE', h0]
    · intro h; exact absurd h h0
    · intro _; simp [validate_dataframe, hE']

/-- C9 witness at a concrete one-row table. -/
theorem validate_dataframe_empty_iff_witness :
    (validate_dataframe tblC9).is_valid = true ∧ (validate_dataframe tblC9).errors = [] :=
  (validate_dataframe_empty_iff tblC9).2.2 (by decide)

/-! ## Claim C10 — behavior with no dataset loaded -/

/-- C10: when no dataset is loaded the store's fetch yields an empty table
(never a null reference), and every engine operation returns a Failure whose
message says no dataset is loaded, leaving the state untouched; no exception
escapes (every embedded operation is a total function). -/
theorem no_dataset_loaded_failures :
    (getDataframe ⟨none⟩ = ⟨[]⟩) ∧
    (∀ g f u r, runMutatingOp g f ⟨⟨none⟩, u, r⟩ =
      ({ success := false, message := "No dataset loaded" }, ⟨⟨none⟩, u, r⟩)) ∧
    (auto_clean ⟨none⟩ =
      ({ success := false, message := "No dataset loaded or dataset is empty" }, ⟨none⟩)) ∧
    (remove_duplicates ⟨none⟩ =
      ({ success := false, message := "No dataset loaded" }, ⟨none⟩)) ∧
    (∀ column, fill_missing_with_mean column ⟨none⟩ =
      ({ success := false, message := "No dataset loaded" }, ⟨none⟩)) ∧
    (∀ column, fill_missing_with_mode column ⟨none⟩ =
      ({ success := false, message := "No dataset loaded" }, ⟨none⟩)) ∧
    (∀ column value, fill_missing_with_custom column value ⟨none⟩ =
      ({ success := false, message := "No dataset loaded" }, ⟨none⟩)) ∧
    (∀ column, drop_column column ⟨none⟩ =
      ({ success := false, message := "No dataset loaded" }, ⟨none⟩)) := by
  refine ⟨rfl, ?_, rfl, rfl, fun _ => rfl, fun _ => rfl, fun _ _ => rfl, fun _ => rfl⟩
  intro g f u r
  rfl

/-! ## Claim C4 — push clears redo in the same step -/

/-- C4: the snapshot push of `_save_undo_state` clears the redo stack as part
of the very same step (the state either is untouched or becomes
push-and-cleared, atomically), and consequently any mutating operation either
leaves the state untouched or ends with an empty redo stack. -/
theorem push_clears_redo_atomically :
    (∀ st : FEState, save_undo_state st = st ∨
      save_undo_state st = ⟨st.store, getDataframe st.store :: st.undoStack, []⟩) ∧
    (∀ g f st, (runMutatingOp g f st).2 = st ∨ (runMutatingOp g f st).2.redoStack = []) := by
  constructor
  · intro st
    by_cases hE : (getDataframe st.store).isEmpty
    · left; simp [save_undo_state, hE]
    · right; simp [save_undo_state, hE]
  · intro g f st
    simp only [runMutatingOp]
    by_cases hE : (getDataframe st.store).isEmpty
    · left; simp [hE]
    · have hE' : (getDataframe st.store).isEmpty = false := by simpa using hE
      have hsave := save_undo_state_of_nonempty hE'
      simp only [hE']
      cases hg : g (getDataframe st.store) with
      | some m => left; simp
      | none =>
        cases hf : f (getDataframe st.store) with
        | error m => right; simp [hsave]
        | ok p => right; simp [hsave]

/-! ## Claim C1 — what a Failure leaves behind -/

/-- C1 (amended): a Failure from any mutating FeatureEngine operation leaves
the Table Store unchanged, and either (guard failure — no/empty dataset,
column/type/parameter checks) leaves the whole state unchanged, or (failure
inside the transform, after the snapshot was already pushed) leaves the undo
stack one snapshot of the pre-call table deeper and the redo stack cleared.
The hypothesis on `f` records that every transform of the source marks its
successful results `success := true`. -/
theorem failure_keeps_store_but_may_push (g : Table → Option String)
    (f : Table → Except String (Table × OpResult)) (st : FEState) (r : OpResult) (st' : FEState)
    (hrun : runMutatingOp g f st = (r, st'))
    (hwf : ∀ df t r0, f df = Except.ok (t, r0) → r0.success = true)
    (hs : r.success = false) :
    st'.store = st.store ∧
    (st' = st ∨
      (st'.undoStack = getDataframe st.store :: st.undoStack ∧ st'.redoStack = [])) := by
  simp only [runMutatingOp] at hrun
  by_cases hE : (getDataframe st.store).isEmpty
  · simp only [hE, if_true] at hrun
    obtain ⟨hr, hst⟩ := Prod.mk.injEq .. ▸ hrun
    exact hst ▸ ⟨rfl, Or.inl rfl⟩
  · have hE' : (getDataframe st.store).isEmpty = false := by simpa using hE
    have hsave := save_undo_state_of_nonempty hE'
    simp only [hE', Bool.false_eq_true, if_false] at hrun
    cases hg : g (getDataframe st.store) with
    | some m =>
      rw [hg] at hrun
      obtain ⟨hr, hst⟩ := Prod.mk.injEq .. ▸ hrun
      exact hst ▸ ⟨rfl, Or.inl rfl⟩
    | none =>
      rw [hg] at hrun
      cases hf : f (getDataframe st.store) with
      | error m =>
        rw [hf] at hrun
        obtain ⟨hr, hst⟩ := Prod.mk.injEq .. ▸ hrun
        rw [← hst, hsave]
        exact ⟨rfl, Or.inr ⟨rfl, rfl⟩⟩
      | ok p =>
        rw [hf] at hrun
        obtain ⟨hr, hst⟩ := Prod.mk.injEq .. ▸ hrun
        have := hwf _ p.1 p.2 (by rw [hf])
        rw [← hr] at hs
        rw [hs] at this
        exact absurd this (by simp)

/-- C1 counterexample: a `create_custom_feature` call that fails inside the
transform (the expression names an undefined column) returns Failure, yet the
undo stack has grown and the redo stack has been cleared — the claim's
"undoStack and redoStack exactly as they were" is violated. -/
theorem failing_custom_feature_corrupts_stacks :
    (create_custom_feature "f" "B" stC1).1.success = false ∧
    ¬((create_custom_feature "f" "B" stC1).2.undoStack = stC1.undoStack ∧
      (create_custom_feature "f" "B" stC1).2.redoStack = stC1.redoStack) := by
  refine ⟨by decide, ?_⟩
  intro h
  exact absurd h.1 (by decide)

/-- C1 witness: the amended theorem applied to a concrete guard-failing call. -/
theorem failure_keeps_store_but_may_push_witness :
    (runMutatingOp (fun _ => some "m") (fun _ => Except.error "x") stC1).2.store = stC1.store :=
  (failure_keeps_store_but_may_push (fun _ => some "m") (fun _ => Except.error "x") stC1 _ _
    rfl (fun _ _ _ h => Except.noConfusion h) (by decide)).1

/-! ## Claim C3 — undo/redo roundtrip after a successful mutation -/

/-- C3: after any successful mutating FeatureEngine call whose resulting
table is non-empty, `undo()` restores the live table to the pre-call table
(attribute-equality is plain equality of the embedded tables), and `redo()`
right after that `undo()` restores the entire post-call state, in particular
the post-call table. -/
theorem undo_redo_roundtrip (g : Table → Option String)
    (f : Table → Except String (Table × OpResult)) (st : FEState) (r : OpResult) (st' : FEState)
    (hrun : runMutatingOp g f st = (r, st'))
    (hs : r.success = true)
    (hne : (getDataframe st'.store).isEmpty = false) :
    (st'.undo).2.store.table = some (getDataframe st.store) ∧
    ((st'.undo).2.redo).2 = st' := by
  simp only [runMutatingOp] at hrun
  by_cases hE : (getDataframe st.store).isEmpty
  · simp only [hE, if_true] at hrun
    obtain ⟨hr, hst⟩ := Prod.mk.injEq .. ▸ hrun
    rw [← hr] at hs
    exact absurd hs (by simp)
  · have hE' : (getDataframe st.store).isEmpty = false := by simpa using hE
    have hsome := store_eq_some_of_nonempty st.store hE'
    have hsave := save_undo_state_of_nonempty hE'
    simp only [hE', Bool.false_eq_true, if_false] at hrun
    cases hg : g (getDataframe st.store) with
    | some m =>
      rw [hg] at hrun
      obtain ⟨hr, hst⟩ := Prod.mk.injEq .. ▸ hrun
      rw [← hr] at hs
      exact absurd hs (by simp)
    | none =>
      rw [hg] at hrun
      cases hf : f (getDataframe st.store) with
      | error m =>
        rw [hf] at hrun
        obtain ⟨hr, hst⟩ := Prod.mk.injEq .. ▸ hrun
        rw [← hr] at hs
        exact absurd hs (by simp)
      | ok p =>
        rw [hf] at hrun
        obtain ⟨hr, hst⟩ := Prod.mk.injEq .. ▸ hrun
        rw [hsave] at hst
        rw [updateDataframe_of_some p.1 hsome] at hst
        have hst' : st' = ⟨⟨some p.1⟩, getDataframe st.store :: st.undoStack, []⟩ := hst.symm
        subst hst'
        have hp1 : p.1.isEmpty = false := by simpa [getDataframe_some] using hne
        have hu : (FEState.undo ⟨⟨some p.1⟩, getDataframe st.store :: st.undoStack, []⟩).2 =
            ⟨⟨some (getDataframe st.store)⟩, st.undoStack, [p.1]⟩ := by
          simp [FEState.undo, getDataframe_some, updateDataframe_some, hp1]
        have hrd : (FEState.redo ⟨⟨some (getDataframe st.store)⟩, st.undoStack, [p.1]⟩).2 =
            ⟨⟨some p.1⟩, getDataframe st.store :: st.undoStack, []⟩ := by
          simp [FEState.redo, getDataframe_some, updateDataframe_some, hE']
        exact ⟨by rw [hu], by rw [hu, hrd]⟩

/-- C3 witness: the roundtrip applied to a concrete successful
`create_polynomial_features` call. -/
theorem undo_redo_roundtrip_witness :
    ((create_polynomial_features "A" 2 stC3).2.undo).2.store.table = some tblC3 :=
  (undo_redo_roundtrip (numericColGuard "A") (polyTransform "A" 2) stC3
    (create_polynomial_features "A" 2 stC3).1 (create_polynomial_features "A" 2 stC3).2
    rfl (by decide) (by decide)).1

/-! ## setCol lemmas -/

theorem find?_map_replace (nm : String) (d : Dtype) (cs : List Cell) (l : List Col) :
    (l.map (fun c => if c.name == nm then ⟨nm, d, cs⟩ else c)).find? (fun c => c.name == nm) =
      if (l.find? (fun c => c.name == nm)).isSome then some ⟨nm, d, cs⟩ else none := by
  induction l with
  | nil => simp
  | cons a l ih =>
    by_cases ha : a.name == nm
    · simp [List.find?, ha]
    · have ha' : (a.name == nm) = false := by simpa using ha
      simp only [List.map, List.find?, ha', if_false]
      simpa [ha'] using ih

theorem find?_none_append {p : Col → Bool} {l₁ : List Col} (l₂ : List Col)
    (h : l₁.find? p = none) : (l₁ ++ l₂).find? p = l₂.find? p := by
  induction l₁ with
  | nil => simp
  | cons a l ih =>
    rw [List.find?] at h
    cases hp : p a with
    | true => rw [hp] at h; exact absurd h (by simp)
    | false =>
      rw [hp] at h
      simpa [List.find?, hp] using ih h

theorem findCol_setCol_self (t : Table) (nm : String) (d : Dtype) (cs : List Cell) :
    (t.setCol nm d cs).findCol nm = some ⟨nm, d, cs⟩ := by
  by_cases h : t.hasCol nm
  · simp only [Table.setCol, h, if_true, Table.findCol]
    rw [find?_map_replace]
    have : (t.cols.find? (fun c => c.name == nm)).isSome = true := h
    simp [this]
  · have h' : t.hasCol nm = false := by simpa using h
    simp only [Table.setCol, h', Bool.false_eq_true, if_false, Table.findCol]
    have hn : t.cols.find? (fun c => c.name == nm) = none := by
      have := h'
      simp only [Table.hasCol, Table.findCol] at this
      exact Option.not_isSome_iff_eq_none.mp (by simp [this])
    rw [find?_none_append _ hn]
    simp [List.find?]

theorem hasCol_iff_mem_names (t : Table) (x : String) :
    t.hasCol x = true ↔ x ∈ t.cols.map Col.name := by
  simp only [Table.hasCol, Table.findCol]
  induction t.cols with
  | nil => simp
  | cons a l ih =>
    by_cases ha : a.name == x
    · have : a.name = x := by simpa using ha
      simp [List.find?, ha, this]
    · have ha' : (a.name == x) = false := by simpa using ha
      have hne : ¬(x = a.name) := fun h => by simp [h] at ha'
      simp only [List.find?, ha', List.map, List.mem_cons]
      rw [ih]
      exact ⟨fun h => Or.inr h, fun h => h.resolve_left hne⟩

theorem setCol_names_fresh {t : Table} {x : String} (d : Dtype) (cs : List Cell)
    (h : x ∉ t.cols.map Col.name) :
    (t.setCol x d cs).cols.map Col.name = t.cols.map Col.name ++ [x] := by
  have h' : t.hasCol x = false := by
    rcases hb : t.hasCol x with _ | _
    · rfl
    · exact absurd ((hasCol_iff_mem_names t x).mp hb) h
  simp [Table.setCol, h']

theorem foldl_setCol_names (f : Nat → String) (g : Nat → List Cell) :
    ∀ (l : List Nat) (t : Table), (l.map f).Nodup →
      (∀ i ∈ l, f i ∉ t.cols.map Col.name) →
      ((l.foldl (fun acc i => acc.setCol (f i) Dtype.numeric (g i)) t).cols.map Col.name) =
        t.cols.map Col.name ++ l.map f
  | [], t, _, _ => by simp
  | a :: l, t, hn, hf => by
    have hfresh : f a ∉ t.cols.map Col.name := hf a (by simp)
    have hstep := setCol_names_fresh (t := t) (x := f a) Dtype.numeric (g a) hfresh
    have hn' : (l.map f).Nodup := by
      rw [List.map_cons] at hn
      exact hn.of_cons
    have hnot : f a ∉ l.map f := by
      rw [List.map_cons] at hn
      exact (List.nodup_cons.mp hn).1
    have hf' : ∀ i ∈ l, f i ∉ (t.setCol (f a) Dtype.numeric (g a)).cols.map Col.name := by
      intro i hi
      rw [hstep]
      intro hmem
      rcases List.mem_append.mp hmem with h1 | h2
      · exact hf i (by simp [hi]) h1
      · have : f i = f a := by simpa using h2
        exact hnot (this ▸ List.mem_map_of_mem f hi)
    have ih := foldl_setCol_names f g l (t.setCol (f a) Dtype.numeric (g a)) hn' hf'
    simp only [List.foldl_cons, List.map_cons]
    rw [ih, hstep]
    simp

/-! ## Claim C7 — log transform shift -/

/-- C7: `logTransform` creates `<col>_log`; when the column minimum is `≤ 0`
every value is shifted by `|min| + 1` before the natural log and the shift is
reported, otherwise the log is taken directly; on the scenario column
`[-5, 0, 10]` the shift is `6`, the new column is
`[log 1, log 6, log 16]`, and the first resulting value is `ln 1 = 0`. -/
theorem log_transform_shift_rule (st : FEState) (column : String) (c : Col) (m : ℚ)
    (r : OpResult) (st' : FEState)
    (hrun : log_transform_column column st = (r, st'))
    (hne : (getDataframe st.store).isEmpty = false)
    (hcol : (getDataframe st.store).findCol column = some c)
    (hnum : c.dtype = Dtype.numeric)
    (hmin : (numVals c.cells).min? = some m) :
    ((m ≤ 0 →
      r.shiftReported = some (|m| + 1) ∧
      (getDataframe st'.store).findCol (column ++ "_log") =
        some ⟨column ++ "_log", Dtype.numeric, logCellsShift (|m| + 1) c.cells⟩) ∧
    (0 < m →
      r.shiftReported = none ∧
      (getDataframe st'.store).findCol (column ++ "_log") =
        some ⟨column ++ "_log", Dtype.numeric, logCellsPlain c.cells⟩) ∧
    r.success = true) ∧
    ((log_transform_column "x" stC7).1.shiftReported = some 6 ∧
     (getDataframe (log_transform_column "x" stC7).2.store).findCol "x_log" =
       some ⟨"x_log", Dtype.numeric, [.tlog 1, .tlog 6, .tlog 16]⟩ ∧
     Cell.rval (Cell.tlog 1) = 0) := by
  refine ⟨?_, of_decide_eq_true (by with_unfolding_all rfl),
    of_decide_eq_true (by with_unfolding_all rfl), ?_⟩
  case refine_2 =>
    show Real.log ((1 : ℚ) : ℝ) = 0
    rw [Rat.cast_one, Real.log_one]
  case refine_1 =>
    have hguard : numericColGuard column (getDataframe st.store) = none := by
      simp [numericColGuard, hcol, hnum]
    have hsome := store_eq_some_of_nonempty st.store hne
    simp only [log_transform_column, runMutatingOp, hne, Bool.false_eq_true, if_false,
      hguard, hcol, hmin] at hrun
    by_cases hm : m ≤ 0
    · simp only [hm, if_true] at hrun
      obtain ⟨hr, hst⟩ := Prod.mk.injEq .. ▸ hrun
      constructor
      · intro _
        refine ⟨by rw [← hr], ?_⟩
        rw [← hst]
        rw [save_undo_state_of_nonempty hne]
        rw [updateDataframe_of_some _ hsome, getDataframe_some]
        exact findCol_setCol_self _ _ _ _
      · constructor
        · intro hm'; exact absurd hm (by simpa using hm')
        · rw [← hr]
    · simp only [hm, if_false] at hrun
      obtain ⟨hr, hst⟩ := Prod.mk.injEq .. ▸ hrun
      constructor
      · intro hm'; exact absurd hm' hm
      · constructor
        · intro _
          refine ⟨by rw [← hr], ?_⟩
          rw [← hst]
          rw [save_undo_state_of_nonempty hne]
          rw [updateDataframe_of_some _ hsome, getDataframe_some]
          exact findCol_setCol_self _ _ _ _
        · rw [← hr]

/-- C7 witness: the shift rule applied to the scenario state, giving shift
`|-5| + 1`. -/
theorem log_transform_shift_rule_witness :
    (log_transform_column "x" stC7).1.shiftReported = some (|(-5 : ℚ)| + 1) :=
  ((log_transform_shift_rule stC7 "x" ⟨"x", Dtype.numeric, [.num (-5), .num 0, .num 10]⟩
    (-5) (log_transform_column "x" stC7).1 (log_transform_column "x" stC7).2
    rfl (by decide) (by decide) rfl
    (of_decide_eq_true (by with_unfolding_all rfl))).1.1 (by norm_num)).1

/-! ## Claim C8 — PCA guards and appended components -/

/-- C8: `applyPCA(nComponents)` fails without mutating anything whenever the
table has fewer than 2 numeric columns or `nComponents` exceeds the
numeric-column count; on success (the external PCA primitive returned
scores) it adds the columns `PC_1..PC_n` — appended at the end when those
names are fresh — and reports the cumulative explained-variance percentage
`100 × Σ ratios`. -/
theorem apply_pca_guards_and_append (K : PcaKernel) (n : Nat) (st : FEState) :
    (((getDataframe st.store).numericCols.length < 2 ∨
        (getDataframe st.store).numericCols.length < n) →
      (apply_pca K n st).1.success = false ∧ (apply_pca K n st).2 = st) ∧
    (∀ r st' scores varsum,
      apply_pca K n st = (r, st') →
      K n ((getDataframe st.store).numericCols.map (fun c => c.cells)) =
        Except.ok (scores, varsum) →
      r.success = true →
      r.varianceReported = some (varsum * 100) ∧
      ((∀ nm ∈ pcNames n, nm ∉ (getDataframe st.store).cols.map Col.name) →
        (pcNames n).Nodup →
        (getDataframe st'.store).cols.map Col.name =
          (getDataframe st.store).cols.map Col.name ++ pcNames n)) := by
  constructor
  · intro hcond
    by_cases hE : (getDataframe st.store).isEmpty
    · constructor <;> simp [apply_pca, runMutatingOp, hE]
    · have hE' : (getDataframe st.store).isEmpty = false := by simpa using hE
      by_cases h2 : (getDataframe st.store).numericCols.length < 2
      · constructor <;> simp [apply_pca, runMutatingOp, hE', h2]
      · have hn : (getDataframe st.store).numericCols.length < n := by
          rcases hcond with h | h
          · exact absurd h h2
          · exact h
        have hn' : n > (getDataframe st.store).numericCols.length := hn
        constructor <;> simp [apply_pca, runMutatingOp, hE', h2, hn']
  · intro r st' scores varsum hrun hK hs
    by_cases hE : (getDataframe st.store).isEmpty
    · rw [apply_pca, runMutatingOp] at hrun
      simp only [hE, if_true] at hrun
      obtain ⟨hr, hst⟩ := Prod.mk.injEq .. ▸ hrun
      rw [← hr] at hs
      exact absurd hs (by simp)
    · have hE' : (getDataframe st.store).isEmpty = false := by simpa using hE
      have hsome := store_eq_some_of_nonempty st.store hE'
      by_cases h2 : (getDataframe st.store).numericCols.length < 2
      · rw [apply_pca, runMutatingOp] at hrun
        simp only [hE', Bool.false_eq_true, if_false, h2, if_true] at hrun
        obtain ⟨hr, hst⟩ := Prod.mk.injEq .. ▸ hrun
        rw [← hr] at hs
        exact absurd hs (by simp)
      · by_cases hn2 : n > (getDataframe st.store).numericCols.length
        · rw [apply_pca, runMutatingOp] at hrun
          simp only [hE', Bool.false_eq_true, if_false, h2, hn2, if_true] at hrun
          obtain ⟨hr, hst⟩ := Prod.mk.injEq .. ▸ hrun
          rw [← hr] at hs
          exact absurd hs (by simp)
        · rw [apply_pca, runMutatingOp] at hrun
          simp only [hE', Bool.false_eq_true, if_false, h2, hn2, hK] at hrun
          obtain ⟨hr, hst⟩ := Prod.mk.injEq .. ▸ hrun
          constructor
          · rw [← hr]
          · intro hfresh hnodup
            rw [← hst, save_undo_state_of_nonempty hE']
            rw [updateDataframe_of_some _ hsome, getDataframe_some]
            exact foldl_setCol_names (fun i => "PC_" ++ toString (i + 1))
              (fun i => (scores.getD i []).map Cell.num) (List.range n)
              (getDataframe st.store) hnodup
              (fun i hi => hfresh _ (List.mem_map_of_mem _ hi))

/-- C8 witness: `applyPCA(3)` on a table with exactly 2 numeric columns fails
and leaves the engine state untouched. -/
theorem apply_pca_guards_and_append_witness :
    (apply_pca pcaKStub 3 stC8).1.success = false ∧ (apply_pca pcaKStub 3 stC8).2 = stC8 :=
  (apply_pca_guards_and_append pcaKStub 3 stC8).1 (Or.inr (by decide))

/-! ## Claim C5 — duplicate report vs duplicate removal -/

theorem length_filter_add_length_filter_not {α : Type} (p : α → Bool) (l : List α) :
    (l.filter p).length + (l.filter (fun a => !p a)).length = l.length := by
  induction l with
  | nil => simp
  | cons a l ih =>
    cases h : p a <;> simp [List.filter, h] <;> omega

theorem rowCount_selectRows (t : Table) (idx : List Nat) (h : t.cols ≠ []) :
    (t.selectRows idx).rowCount = idx.length := by
  cases hc : t.cols with
  | nil => exact absurd hc h
  | cons c cs => simp [Table.selectRows, Table.rowCount, hc]

theorem duplicatedCount_eq_removed (t : Table) (h : t.cols ≠ []) :
    t.duplicatedCount = t.rowCount - t.dropDuplicates.rowCount := by
  rw [Table.dropDuplicates, rowCount_selectRows t _ h]
  have hpart := length_filter_add_length_filter_not (fun i => t.dupB i) (List.range t.rowCount)
  rw [Table.duplicatedCount, Table.keptIndices]
  simp only [List.length_range] at hpart
  omega

/-- C5: on the scenario table `[Raju,25],[Ajay,30],[Raju,25]`,
`removeDuplicates` reports 1 removed row and leaves 2 rows, while the
Validator's `duplicateReport` on the original table reports both members of
the duplicate group, `(2, [0, 2])`; in general `duplicated().sum()` counts
exactly the rows dropped by keep-first deduplication, the report lists
exactly the rows with an equal row elsewhere, and the keep-first marker flags
exactly the rows with an equal earlier row. -/
theorem duplicate_report_vs_removal :
    ((remove_duplicates stC5).1.duplicatesRemoved = some 1 ∧
     (remove_duplicates stC5).2.table.map Table.rowCount = some 2 ∧
     check_duplicates tblC5 = (2, [0, 2])) ∧
    (∀ t : Table, t.cols ≠ [] →
      t.duplicatedCount = t.rowCount - t.dropDuplicates.rowCount) ∧
    (∀ (t : Table) (i : Nat), i ∈ (check_duplicates t).2 ↔
      i < t.rowCount ∧ ∃ j, j < t.rowCount ∧ j ≠ i ∧ t.rowAt j = t.rowAt i) ∧
    (∀ (t : Table) (i : Nat), t.dupB i = true ↔ ∃ j < i, t.rowAt j = t.rowAt i) := by
  refine ⟨⟨by decide, by decide, by decide⟩, duplicatedCount_eq_removed, ?_, ?_⟩
  · intro t i
    simp only [check_duplicates, List.mem_filter, List.mem_range, Table.dupAnyB,
      List.any_eq_true, Bool.and_eq_true, Bool.not_eq_true', beq_eq_false_iff_ne,
      decide_eq_true_eq]
  · intro t i
    simp [Table.dupB, List.any_eq_true, List.mem_range]

/-- C5 witness: the general removed-count identity applied to the scenario
table. -/
theorem duplicate_report_vs_removal_witness :
    tblC5.duplicatedCount = tblC5.rowCount - tblC5.dropDuplicates.rowCount :=
  duplicate_report_vs_removal.2.1 tblC5 (by decide)

/-! ## Claim C2 — the 20% threshold of auto_clean stage 3 -/

/-- C2 (the code contradicts its own comment): stage 3 as implemented keeps a
column iff its non-missing count is at least `0.8 × rowCount`, i.e. it drops
every column that is more than 20% missing.  On `tblC2`, column `A` is 60%
non-missing — far above the 20% the claim says suffices to be kept — yet the
pipeline drops it, leaving only `B`. -/
theorem auto_clean_threshold_drops_forty_percent_missing :
    (∀ (t : Table) (c : Col), c ∈ (dropThreshCols t).cols ↔
      c ∈ t.cols ∧ (4 / 5 : ℚ) * t.rowCount ≤ nonMissingCount c.cells) ∧
    tblC2.rowCount = 5 ∧
    nonMissingCount [Cell.num 1, Cell.num 2, Cell.num 3, Cell.missing, Cell.missing] = 3 ∧
    (1 / 5 : ℚ) * 5 ≤ 3 ∧
    (autoCleanPipeline tblC2).1.cols.map Col.name = ["B"] ∧
    (auto_clean ⟨some tblC2⟩).1.columnsRemoved = some 1 := by
  refine ⟨?_, by decide, by decide,
    of_decide_eq_true (by with_unfolding_all rfl),
    of_decide_eq_true (by with_unfolding_all rfl),
    of_decide_eq_true (by with_unfolding_all rfl)⟩
  intro t c
  simp [dropThreshCols, List.mem_filter]

/-! ## auto_clean idempotence machinery -/

theorem isMissingB_eq_false_iff (x : Cell) : x.isMissingB = false ↔ x ≠ Cell.missing := by
  cases x <;> simp [Cell.isMissingB]

theorem replCell_eq_self {x : Cell} (h : x.isTokenB = false) : replCell x = x := by
  cases x with
  | str s =>
    have : ¬(s ∈ missingTokens) := by simpa [Cell.isTokenB] using h
    simp [replCell, this]
  | _ => rfl

theorem replCell_isTokenB (x : Cell) : (replCell x).isTokenB = false := by
  cases x with
  | str s =>
    by_cases h : s ∈ missingTokens
    · simp [replCell, h, Cell.isTokenB]
    · simp [replCell, h, Cell.isTokenB]
  | _ => rfl

theorem map_eq_self_of_eq {α : Type} {l : List α} {f : α → α} (h : ∀ a ∈ l, f a = a) :
    l.map f = l := by
  induction l with
  | nil => rfl
  | cons a l ih =>
    rw [List.map_cons, h a (by simp), ih (fun x hx => h x (by simp [hx]))]

theorem replaceMissingTokens_eq_self {t : Table} (h : t.noTokens) :
    replaceMissingTokens t = t := by
  rw [replaceMissingTokens]
  cases t with
  | mk cols =>
    congr 1
    apply map_eq_self_of_eq
    intro c hc
    cases c with
    | mk n d cs =>
      simp only [Col.mk.injEq, true_and]
      exact map_eq_self_of_eq (fun x hx => replCell_eq_self (h _ hc x hx))

theorem all_isMissingB_eq_false {c : Col} (hne : c.cells ≠ [])
    (h : ∀ x ∈ c.cells, x ≠ Cell.missing) :
    c.cells.all Cell.isMissingB = false := by
  rcases List.exists_mem_of_ne_nil c.cells hne with ⟨x, hx⟩
  cases hA : c.cells.all Cell.isMissingB with
  | false => rfl
  | true =>
    have hx' := List.all_eq_true.mp hA x hx
    have hxm : x = Cell.missing := by
      cases x <;> simp [Cell.isMissingB] at hx' ⊢
    exact absurd hxm (h x hx)

theorem dropAllMissingCols_eq_self {t : Table} (hm : t.noMissing) (ha : t.aligned)
    (hr : 0 < t.rowCount) : dropAllMissingCols t = t := by
  rw [dropAllMissingCols]
  cases t with
  | mk cols =>
    congr 1
    apply List.filter_eq_self.mpr
    intro c hc
    have hlen := ha c hc
    have hne : c.cells ≠ [] := by
      intro h0
      rw [h0] at hlen
      simp at hlen
      omega
    simp [all_isMissingB_eq_false hne (hm c hc)]

theorem nonMissingCount_eq_length {c : Col} (h : ∀ x ∈ c.cells, x ≠ Cell.missing) :
    nonMissingCount c.cells = c.cells.length := by
  rw [nonMissingCount]
  have : c.cells.filter (fun x => !x.isMissingB) = c.cells := by
    apply List.filter_eq_self.mpr
    intro x hx
    simp [(isMissingB_eq_false_iff x).mpr (h x hx)]
  rw [this]

theorem dropThreshCols_eq_self {t : Table} (hm : t.noMissing) (ha : t.aligned) :
    dropThreshCols t = t := by
  rw [dropThreshCols]
  cases t with
  | mk cols =>
    congr 1
    apply List.filter_eq_self.mpr
    intro c hc
    rw [nonMissingCount_eq_length (hm c hc), ha c hc]
    have hq : (4 / 5 : ℚ) * (Table.mk cols).rowCount ≤ (Table.mk cols).rowCount := by
      have h1 : ((4 : ℚ) / 5) ≤ 1 := by norm_num
      have h2 : (0 : ℚ) ≤ ((Table.mk cols).rowCount : ℚ) := Nat.cast_nonneg _
      calc (4 / 5 : ℚ) * (Table.mk cols).rowCount ≤ 1 * (Table.mk cols).rowCount :=
            mul_le_mul_of_nonneg_right h1 h2
        _ = (Table.mk cols).rowCount := one_mul _
    simp [hq]

theorem any_isMissingB_eq_false {cs : List Cell} (h : ∀ x ∈ cs, x ≠ Cell.missing) :
    cs.any Cell.isMissingB = false := by
  cases hA : cs.any Cell.isMissingB with
  | false => rfl
  | true =>
    rcases List.any_eq_true.mp hA with ⟨x, hx, hxm⟩
    have : x = Cell.missing := by cases x <;> simp [Cell.isMissingB] at hxm ⊢
    exact absurd this (h x hx)

theorem fillColumn_eq_self {c : Col} (h : ∀ x ∈ c.cells, x ≠ Cell.missing) :
    fillColumn c = c := by
  rw [fillColumn, any_isMissingB_eq_false h]
  simp

theorem fillMissingValues_eq_self {t : Table} (hm : t.noMissing) :
    fillMissingValues t = t := by
  rw [fillMissingValues]
  cases t with
  | mk cols =>
    congr 1
    exact map_eq_self_of_eq (fun c hc => fillColumn_eq_self (hm c hc))

theorem keptIndices_eq_range {t : Table} (hd : t.noDups) :
    t.keptIndices = List.range t.rowCount := by
  rw [Table.keptIndices]
  apply List.filter_eq_self.mpr
  intro i hi
  simp [hd i (List.mem_range.mp hi)]

theorem map_range_getD {α : Type} (l : List α) (d : α) :
    (List.range l.length).map (fun i => l.getD i d) = l := by
  induction l with
  | nil => rfl
  | cons a l ih =>
    rw [List.length_cons, List.range_succ_eq_map, List.map_cons, List.map_map]
    have hc : ((fun i => (a :: l).getD i d) ∘ Nat.succ) = (fun i => l.getD i d) := by
      funext i
      simp [Function.comp, List.getD_cons_succ]
    rw [List.getD_cons_zero, hc, ih]

theorem selectRows_range_eq_self {t : Table} (ha : t.aligned) :
    t.selectRows (List.range t.rowCount) = t := by
  rw [Table.selectRows]
  cases t with
  | mk cols =>
    congr 1
    apply map_eq_self_of_eq
    intro c hc
    cases c with
    | mk n dt cs =>
      simp only [Col.mk.injEq, true_and]
      have hlen := ha _ hc
      simp only at hlen
      rw [← hlen]
      exact map_range_getD cs Cell.missing

theorem dropDuplicates_eq_self {t : Table} (hd : t.noDups) (ha : t.aligned) :
    t.dropDuplicates = t := by
  rw [Table.dropDuplicates, keptIndices_eq_range hd, selectRows_range_eq_self ha]

theorem duplicatedCount_eq_zero {t : Table} (hd : t.noDups) : t.duplicatedCount = 0 := by
  rw [Table.duplicatedCount]
  have : (List.range t.rowCount).filter (fun i => t.dupB i) = [] := by
    apply List.filter_eq_nil.mpr
    intro i hi
    simp [hd i (List.mem_range.mp hi)]
  rw [this]
  rfl

theorem totalMissing_eq_zero {t : Table} (hm : t.noMissing) : t.totalMissing = 0 := by
  rw [Table.totalMissing]
  have : ∀ c ∈ t.cols, (c.cells.filter (fun x => x.isMissingB)).length = 0 := by
    intro c hc
    have : c.cells.filter (fun x => x.isMissingB) = [] := by
      apply List.filter_eq_nil.mpr
      intro x hx
      simp [(isMissingB_eq_false_iff x).mpr (hm c hc x hx)]
    simp [this]
  apply List.sum_eq_zero
  intro x hx
  rcases List.mem_map.mp hx with ⟨c, hc, rfl⟩
  exact this c hc

theorem pickMode_mem (cs : List Cell) :
    ∀ (l : List Cell) (v : Cell), pickMode cs l = some v → v ∈ l
  | [], v, h => by simp [pickMode] at h
  | a :: l, v, h => by
    rw [pickMode] at h
    split at h
    · simp only [Option.some.injEq] at h
      simp [← h]
    · rename_i b hrec
      split at h <;> simp only [Option.some.injEq] at h
      · simp [← h]
      · have := pickMode_mem cs l b hrec
        simp [← h, this]

theorem colMode_mem {cs : List Cell} {v : Cell} (h : colMode cs = some v) :
    v ∈ cs ∧ v ≠ Cell.missing := by
  rw [colMode] at h
  have hmem := pickMode_mem _ _ _ h
  have hf := List.mem_filter.mp hmem
  refine ⟨hf.1, ?_⟩
  have := hf.2
  simpa [isMissingB_eq_false_iff] using this

theorem mem_fillCells {cs : List Cell} {v x : Cell} (h : x ∈ fillCells cs v) :
    x = v ∨ (x ∈ cs ∧ x ≠ Cell.missing) := by
  rcases List.mem_map.mp h with ⟨y, hy, hxy⟩
  by_cases hm : y.isMissingB
  · left; rw [← hxy]; simp [hm]
  · right
    have hm' : y.isMissingB = false := by simpa using hm
    rw [← hxy]
    simp only [hm', Bool.false_eq_true, if_false]
    exact ⟨hy, (isMissingB_eq_false_iff y).mp hm'⟩

theorem length_fillCells (cs : List Cell) (v : Cell) :
    (fillCells cs v).length = cs.length := by
  simp [fillCells]

theorem fillColumn_cases (c : Col) :
    (c.cells.any (fun x => x.isMissingB) = false ∧ fillColumn c = c) ∨
    (∃ v, v ≠ Cell.missing ∧
      fillColumn c = ⟨c.name, c.dtype, fillCells c.cells v⟩ ∧
      (v ∈ c.cells ∨ (∃ q, v = Cell.num q) ∨ v = Cell.str "Unknown")) := by
  rw [fillColumn]
  by_cases hany : c.cells.any (fun x => x.isMissingB)
  · rw [if_pos hany]
    by_cases hnum : c.dtype = Dtype.numeric
    · rw [if_pos hnum]
      by_cases hall : !(c.cells.all (fun x => x.isMissingB))
      · rw [if_pos hall]
        right
        exact ⟨Cell.num (colMean c.cells), by simp, rfl, Or.inr (Or.inl ⟨_, rfl⟩)⟩
      · rw [if_neg hall]
        right
        exact ⟨Cell.num 0, by simp, rfl, Or.inr (Or.inl ⟨_, rfl⟩)⟩
    · rw [if_neg hnum]
      cases hmode : colMode c.cells with
      | some v =>
        right
        have hv := colMode_mem hmode
        exact ⟨v, hv.2, rfl, Or.inl hv.1⟩
      | none =>
        right
        exact ⟨Cell.str "Unknown", by simp, rfl, Or.inr (Or.inr rfl)⟩
  · rw [if_neg hany]
    exact Or.inl ⟨by simpa using hany, rfl⟩

theorem fillColumn_noMissing (c : Col) (hany : c.cells.any (fun x => x.isMissingB) = false) :
    ∀ x ∈ c.cells, x ≠ Cell.missing := by
  intro x hx
  intro hxm
  have hxb : x.isMissingB = true := by rw [hxm]; rfl
  have := List.any_eq_true.mpr ⟨x, hx, hxb⟩
  rw [hany] at this
  exact absurd this (by simp)

theorem noMissing_fillColumn (c : Col) : ∀ x ∈ (fillColumn c).cells, x ≠ Cell.missing := by
  rcases fillColumn_cases c with ⟨hany, h⟩ | ⟨v, hv, heq, _⟩
  · intro x hx
    rw [h] at hx
    exact fillColumn_noMissing c hany x hx
  · intro x hx
    rw [heq] at hx
    simp only at hx
    rcases mem_fillCells hx with h1 | h2
    · rw [h1]; exact hv
    · exact h2.2

theorem noMissing_fillMissingValues (t : Table) : (fillMissingValues t).noMissing := by
  intro c hc x hx
  rw [fillMissingValues] at hc
  rcases List.mem_map.mp hc with ⟨c0, hc0, rfl⟩
  exact noMissing_fillColumn c0 x hx

theorem noTokens_fillMissingValues {t : Table} (h : t.noTokens) :
    (fillMissingValues t).noTokens := by
  intro c hc x hx
  rw [fillMissingValues] at hc
  rcases List.mem_map.mp hc with ⟨c0, hc0, rfl⟩
  rcases fillColumn_cases c0 with ⟨_, hid⟩ | ⟨v, hv, heq, hsrc⟩
  · rw [hid] at hx
    exact h c0 hc0 x hx
  · rw [heq] at hx
    simp only at hx
    rcases mem_fillCells hx with h1 | h2
    · rcases hsrc with hs | ⟨q, hq⟩ | hs
      · rw [h1]; exact h c0 hc0 v hs
      · rw [h1, hq]; rfl
      · rw [h1, hs]
        simp [Cell.isTokenB, missingTokens]
    · exact h c0 hc0 x h2.1

theorem fillColumn_length (c : Col) : (fillColumn c).cells.length = c.cells.length := by
  rcases fillColumn_cases c with ⟨_, h⟩ | ⟨v, _, heq, _⟩
  · rw [h]
  · rw [heq]
    simp [length_fillCells]

theorem fillColumn_name (c : Col) : (fillColumn c).name = c.name := by
  rcases fillColumn_cases c with ⟨_, h⟩ | ⟨v, _, heq, _⟩
  · rw [h]
  · rw [heq]

theorem noTokens_replaceMissingTokens (t : Table) : (replaceMissingTokens t).noTokens := by
  intro c hc x hx
  rw [replaceMissingTokens] at hc
  rcases List.mem_map.mp hc with ⟨c0, hc0, rfl⟩
  simp only at hx
  rcases List.mem_map.mp hx with ⟨y, hy, rfl⟩
  exact replCell_isTokenB y

theorem noTokens_filterCols {t : Table} (h : t.noTokens) (p : Col → Bool) :
    Table.noTokens ⟨t.cols.filter p⟩ := by
  intro c hc x hx
  exact h c (List.mem_of_mem_filter hc) x hx

theorem getD_mem_of_lt {α : Type} (l : List α) (i : Nat) (d : α) (h : i < l.length) :
    l.getD i d ∈ l := by
  rw [List.getD_eq_getElem l d h]
  exact List.getElem_mem h

theorem noTokens_selectRows {t : Table} (h : t.noTokens) (idx : List Nat) :
    (t.selectRows idx).noTokens := by
  intro c hc x hx
  rw [Table.selectRows] at hc
  rcases List.mem_map.mp hc with ⟨c0, hc0, rfl⟩
  simp only at hx
  rcases List.mem_map.mp hx with ⟨i, hi, rfl⟩
  by_cases hlt : i < c0.cells.length
  · exact h c0 hc0 _ (getD_mem_of_lt _ _ _ hlt)
  · rw [List.getD_eq_default]
    · rfl
    · omega

theorem noMissing_selectRows {t : Table} (hm : t.noMissing) (ha : t.aligned)
    (idx : List Nat) (hidx : ∀ i ∈ idx, i < t.rowCount) :
    (t.selectRows idx).noMissing := by
  intro c hc x hx
  rw [Table.selectRows] at hc
  rcases List.mem_map.mp hc with ⟨c0, hc0, rfl⟩
  simp only at hx
  rcases List.mem_map.mp hx with ⟨i, hi, rfl⟩
  have hlt : i < c0.cells.length := by
    rw [ha c0 hc0]
    exact hidx i hi
  exact hm c0 hc0 _ (getD_mem_of_lt _ _ _ hlt)

theorem rowCount_map_of_length_eq {t : Table} {F : Col → Col}
    (hF : ∀ c, (F c).cells.length = c.cells.length) :
    (Table.mk (t.cols.map F)).rowCount = t.rowCount := by
  cases hc : t.cols with
  | nil => simp [Table.rowCount, hc]
  | cons c cs => simp [Table.rowCount, hc, hF]

theorem aligned_map_of_length_eq {t : Table} {F : Col → Col} (ha : t.aligned)
    (hF : ∀ c, (F c).cells.length = c.cells.length) :
    (Table.mk (t.cols.map F)).aligned := by
  intro c hc
  rcases List.mem_map.mp hc with ⟨c0, hc0, rfl⟩
  rw [rowCount_map_of_length_eq hF, hF c0]
  exact ha c0 hc0

theorem aligned_filterCols {t : Table} (ha : t.aligned) (p : Col → Bool) :
    Table.aligned ⟨t.cols.filter p⟩ := by
  intro c hc
  cases hf : t.cols.filter p with
  | nil => rw [hf] at hc; exact absurd hc (by simp)
  | cons c1 cs1 =>
    have hc1 : c1 ∈ t.cols := List.mem_of_mem_filter (p := p) (by rw [hf]; simp)
    have hcm : c ∈ t.cols := List.mem_of_mem_filter hc
    show c.cells.length = (Table.mk (c1 :: cs1)).rowCount
    have hr : (Table.mk (c1 :: cs1)).rowCount = c1.cells.length := by
      simp [Table.rowCount]
    rw [hr, ha c hcm, ha c1 hc1]

theorem aligned_selectRows (t : Table) (idx : List Nat) : (t.selectRows idx).aligned := by
  intro c hc
  rw [Table.selectRows] at hc
  rcases List.mem_map.mp hc with ⟨c0, hc0, rfl⟩
  cases hcols : t.cols with
  | nil => rw [hcols] at hc0; exact absurd hc0 (by simp)
  | cons c1 cs1 =>
    simp only [List.length_map]
    show idx.length = (t.selectRows idx).rowCount
    rw [rowCount_selectRows t idx (by rw [hcols]; simp)]

theorem dupB_eq_true_iff (t : Table) (i : Nat) :
    t.dupB i = true ↔ ∃ j < i, t.rowAt j = t.rowAt i := by
  simp [Table.dupB, List.any_eq_true, List.mem_range]

theorem rowAt_selectRows (t : Table) (idx : List Nat) (k : Nat) (hk : k < idx.length) :
    (t.selectRows idx).rowAt k = t.rowAt (idx.get ⟨k, hk⟩) := by
  rw [Table.selectRows, Table.rowAt, Table.rowAt, List.map_map]
  apply List.map_congr_left
  intro c hc
  simp only [Function.comp]
  rw [List.getD_eq_getElem _ _ (by simpa using hk)]
  simp [List.getElem_map]

theorem keptIndices_pairwise (t : Table) : t.keptIndices.Pairwise (· < ·) :=
  (List.pairwise_lt_range t.rowCount).filter _

theorem mem_keptIndices_iff (t : Table) (i : Nat) :
    i ∈ t.keptIndices ↔ i < t.rowCount ∧ t.dupB i = false := by
  simp [Table.keptIndices, List.mem_filter, List.mem_range]

theorem rowCount_selectRows_le (t : Table) (idx : List Nat) :
    (t.selectRows idx).rowCount ≤ idx.length := by
  cases hc : t.cols with
  | nil => simp [Table.selectRows, Table.rowCount, hc]
  | cons c cs => simp [Table.selectRows, Table.rowCount, hc]

theorem noDups_dropDuplicates (t : Table) : t.dropDuplicates.noDups := by
  intro k hk
  rw [Table.dropDuplicates] at hk ⊢
  by_contra hdup
  have hdup' : (t.selectRows t.keptIndices).dupB k = true := by
    cases h : (t.selectRows t.keptIndices).dupB k with
    | true => rfl
    | false => exact absurd h hdup
  rcases (dupB_eq_true_iff _ k).mp hdup' with ⟨j, hjk, heq⟩
  have hklen : k < t.keptIndices.length :=
    lt_of_lt_of_le hk (rowCount_selectRows_le t t.keptIndices)
  have hjlen : j < t.keptIndices.length := lt_trans hjk hklen
  rw [rowAt_selectRows t _ j hjlen, rowAt_selectRows t _ k hklen] at heq
  have hmono : t.keptIndices.get ⟨j, hjlen⟩ < t.keptIndices.get ⟨k, hklen⟩ := by
    have hs : t.keptIndices.Sorted (· < ·) := keptIndices_pairwise t
    exact List.Sorted.get_strictMono hs (by simpa using hjk)
  have hkmem : t.keptIndices.get ⟨k, hklen⟩ ∈ t.keptIndices := List.get_mem _ _ hklen
  have hknodup := ((mem_keptIndices_iff t _).mp hkmem).2
  have : t.dupB (t.keptIndices.get ⟨k, hklen⟩) = true :=
    (dupB_eq_true_iff t _).mpr ⟨t.keptIndices.get ⟨j, hjlen⟩, hmono, heq⟩
  rw [hknodup] at this
  exact absurd this (by simp)

theorem aligned_replaceMissingTokens {t : Table} (ha : t.aligned) :
    (replaceMissingTokens t).aligned := by
  rw [replaceMissingTokens]
  exact aligned_map_of_length_eq ha (fun c => by simp)

theorem aligned_dropAllMissingCols {t : Table} (ha : t.aligned) :
    (dropAllMissingCols t).aligned := by
  rw [dropAllMissingCols]
  exact aligned_filterCols ha _

theorem aligned_dropThreshCols {t : Table} (ha : t.aligned) :
    (dropThreshCols t).aligned := by
  rw [dropThreshCols]
  exact aligned_filterCols ha _

theorem aligned_fillMissingValues {t : Table} (ha : t.aligned) :
    (fillMissingValues t).aligned := by
  rw [fillMissingValues]
  exact aligned_map_of_length_eq ha fillColumn_length

theorem noTokens_dropAllMissingCols {t : Table} (h : t.noTokens) :
    (dropAllMissingCols t).noTokens := by
  rw [dropAllMissingCols]
  exact noTokens_filterCols h _

theorem noTokens_dropThreshCols {t : Table} (h : t.noTokens) :
    (dropThreshCols t).noTokens := by
  rw [dropThreshCols]
  exact noTokens_filterCols h _

theorem pipeline_invariants (t : Table) (ha : t.aligned) :
    (autoCleanPipeline t).1.noMissing ∧ (autoCleanPipeline t).1.noTokens ∧
    (autoCleanPipeline t).1.noDups ∧ (autoCleanPipeline t).1.aligned := by
  have hP : (autoCleanPipeline t).1 =
      (fillMissingValues (dropThreshCols (dropAllMissingCols
        (replaceMissingTokens t)))).dropDuplicates := rfl
  set s4 := fillMissingValues (dropThreshCols (dropAllMissingCols (replaceMissingTokens t)))
    with hs4
  have ha4 : s4.aligned :=
    aligned_fillMissingValues (aligned_dropThreshCols (aligned_dropAllMissingCols
      (aligned_replaceMissingTokens ha)))
  have hm4 : s4.noMissing := noMissing_fillMissingValues _
  have htk4 : s4.noTokens :=
    noTokens_fillMissingValues (noTokens_dropThreshCols (noTokens_dropAllMissingCols
      (noTokens_replaceMissingTokens t)))
  rw [hP]
  refine ⟨?_, ?_, ?_, ?_⟩
  · rw [Table.dropDuplicates]
    exact noMissing_selectRows hm4 ha4 _ (fun i hi => ((mem_keptIndices_iff s4 i).mp hi).1)
  · rw [Table.dropDuplicates]
    exact noTokens_selectRows htk4 _
  · exact noDups_dropDuplicates s4
  · rw [Table.dropDuplicates]
    exact aligned_selectRows s4 _

theorem pipeline_fixpoint {u : Table} (hm : u.noMissing) (htk : u.noTokens)
    (hd : u.noDups) (ha : u.aligned) (hne : u.isEmpty = false) :
    autoCleanPipeline u = (u, 0, 0) := by
  have hr : 0 < u.rowCount := ((Table.isEmpty_false_iff u).mp hne).2
  have h1 : replaceMissingTokens u = u := replaceMissingTokens_eq_self htk
  have h2 : dropAllMissingCols u = u := dropAllMissingCols_eq_self hm ha hr
  have h3 : dropThreshCols u = u := dropThreshCols_eq_self hm ha
  have h4 : fillMissingValues u = u := fillMissingValues_eq_self hm
  have h5 : u.duplicatedCount = 0 := duplicatedCount_eq_zero hd
  have h6 : u.dropDuplicates = u := dropDuplicates_eq_self hd ha
  simp only [autoCleanPipeline]
  rw [h1, h2, h3, h4, h5, h6]
  simp

/-! ## Claim C6 — auto_clean idempotence -/

/-- C6: after a successful `auto_clean` on a non-empty table the cleaned
table has no fillable missing cell left, and running `auto_clean` again
leaves the Table Store exactly as it is; when the second run reports at all
(the cleaned table is non-empty) it removes zero duplicates and drops zero
columns. -/
theorem auto_clean_idempotent (s : StoreState) (t : Table)
    (hs : s.table = some t) (ha : t.aligned) (hne : t.isEmpty = false) :
    (auto_clean ((auto_clean s).2)).2 = (auto_clean s).2 ∧
    (getDataframe (auto_clean s).2).totalMissing = 0 ∧
    ((auto_clean ((auto_clean s).2)).1.success = true →
      (auto_clean ((auto_clean s).2)).1.duplicatesRemoved = some 0 ∧
      (auto_clean ((auto_clean s).2)).1.columnsRemoved = some 0) := by
  have hdf : getDataframe s = t := by simp [getDataframe, hs]
  have h1 : (auto_clean s).2 = ⟨some (autoCleanPipeline t).1⟩ := by
    simp only [auto_clean, hdf, hne, Bool.false_eq_true, if_false]
    exact updateDataframe_of_some _ hs
  have hinv := pipeline_invariants t ha
  rw [h1]
  have hdf2 : getDataframe ⟨some (autoCleanPipeline t).1⟩ = (autoCleanPipeline t).1 := rfl
  by_cases hTE : (autoCleanPipeline t).1.isEmpty
  · refine ⟨?_, totalMissing_eq_zero hinv.1, ?_⟩
    · simp [auto_clean, hdf2, hTE]
    · intro hsucc
      exfalso
      simp [auto_clean, hdf2, hTE] at hsucc
  · have hTE' : (autoCleanPipeline t).1.isEmpty = false := by simpa using hTE
    have hfix : autoCleanPipeline (autoCleanPipeline t).1 = ((autoCleanPipeline t).1, 0, 0) :=
      pipeline_fixpoint hinv.1 hinv.2.1 hinv.2.2.1 hinv.2.2.2 hTE'
    refine ⟨?_, totalMissing_eq_zero hinv.1, ?_⟩
    · simp [auto_clean, hdf2, hTE', hfix, updateDataframe]
    · intro _
      constructor <;> simp [auto_clean, hdf2, hTE', hfix]

/-- C6 witness: idempotence applied to the concrete scenario store. -/
theorem auto_clean_idempotent_witness :
    (auto_clean ((auto_clean stC6).2)).2 = (auto_clean stC6).2 :=
  (auto_clean_idempotent stC6 tblC6 rfl (by decide) (by decide)).1
